import Mathlib

/-!
Shallow embedding of the `browser-coder` Python starter script
(`src/languages/python/starters/python3.py`) and proofs of the spec claims.

The script defines a recursive `fib`, a list `numbers`, a list-comprehension
`doubled`, a `User` class with a `greet` method, a dict-comprehension
`squares`, a `filter`-based `evens`, and prints five lines.  Python integers
are unbounded, so they are embedded as `Int`; Python lists as `List`;
the dict (insertion-ordered in Python 3.7+) as an association `List`.
-/

namespace BrowserCoder

/-- Embedding of `def fib(n): if n <= 1: return n; return fib(n-1)+fib(n-2)`.
Python integers are unbounded, so the argument is `Int`; the recursion is
well-founded because each call strictly decreases `n.toNat` once `n > 1`. -/
def fib (n : Int) : Int :=
  if n ≤ 1 then n
  else fib (n - 1) + fib (n - 2)
termination_by n.toNat
decreasing_by
  · omega
  · omega

/-- The reference Fibonacci recurrence named by the spec:
fib(0)=0, fib(1)=1, fib(n)=fib(n-1)+fib(n-2) for n>1. -/
def fibRef : Nat → Nat
  | 0 => 0
  | 1 => 1
  | n + 2 => fibRef (n + 1) + fibRef n

theorem fib_of_le_one (n : Int) (h : n ≤ 1) : fib n = n := by
  rw [fib]
  simp [h]

theorem fib_of_gt_one (n : Int) (h : ¬ n ≤ 1) :
    fib n = fib (n - 1) + fib (n - 2) := by
  rw [fib]
  simp [h]

theorem fib_nat (n : Nat) : fib (n : Int) = (fibRef n : Int) := by
  induction n using Nat.strong_induction_on with
  | _ n ih =>
    match n with
    | 0 => rw [fib_of_le_one _ (by norm_num)]; rfl
    | 1 => rw [fib_of_le_one _ (by norm_num)]; rfl
    | m + 2 =>
      have h : ¬ ((m + 2 : Nat) : Int) ≤ 1 := by push_cast; omega
      rw [fib_of_gt_one _ h]
      have e1 : ((m + 2 : Nat) : Int) - 1 = ((m + 1 : Nat) : Int) := by
        push_cast; ring
      have e2 : ((m + 2 : Nat) : Int) - 2 = ((m : Nat) : Int) := by
        push_cast; ring
      rw [e1, e2, ih (m + 1) (by omega), ih m (by omega)]
      show _ = ((fibRef (m + 2) : Nat) : Int)
      rw [fibRef]
      push_cast
      ring

theorem fib_ten : fib 10 = 55 := by
  have h := fib_nat 10
  norm_num at h
  have : fibRef 10 = 55 := by decide
  rw [this] at h
  exact_mod_cast h

/-- Embedding of the `User` class: two typed attributes `name : str` and
`age : int`, stored verbatim by `__init__`. -/
structure User where
  name : String
  age : Int
deriving DecidableEq

/-- Embedding of `def greet(self) -> str: return f"Hello, {self.name}!"`. -/
def User.greet (u : User) : String :=
  "Hello, " ++ u.name ++ "!"

/-- Embedding of `numbers = [1, 2, 3, 4, 5]`. -/
def numbers : List Int := [1, 2, 3, 4, 5]

/-- Embedding of the list comprehension `[n * 2 for n in s]` as applied to an
arbitrary source sequence `s` (the script applies it to `numbers`). -/
def doubledOf (s : List Int) : List Int :=
  s.map (fun n => n * 2)

/-- Embedding of `doubled = [n * 2 for n in numbers]`. -/
def doubled : List Int := doubledOf numbers

/-- Embedding of `user = User("Nina", 25)`. -/
def user : User := User.mk "Nina" 25

/-- Embedding of the dict comprehension `{n: n**2 for n in range(1, 6)}` as an
insertion-ordered association list (Python 3.7+ dicts preserve insertion
order); `range(1, 6)` is `List.range' 1 5 = [1, 2, 3, 4, 5]`. -/
def squaresOf : List (Int × Int) :=
  (List.range' 1 5).map (fun n => ((n : Int), (n : Int) ^ 2))

/-- Embedding of `squares = {n: n**2 for n in range(1, 6)}`. -/
def squares : List (Int × Int) := squaresOf

/-- Embedding of `list(filter(lambda x: x % 2 == 0, s))` for an arbitrary
source sequence `s` (the script applies it to `numbers`); Python `%` on a
positive modulus agrees with `Int.emod`. -/
def evensOf (s : List Int) : List Int :=
  s.filter (fun x => x % 2 == 0)

/-- Embedding of `evens = list(filter(lambda x: x % 2 == 0, numbers))`. -/
def evens : List Int := evensOf numbers

/-- Python `repr` of a list of integers, e.g. `[2, 4]`. -/
def pyListRepr (xs : List Int) : String :=
  "[" ++ String.intercalate ", " (xs.map toString) ++ "]"

/-- Python `repr` of an insertion-ordered dict of integers,
e.g. `\x7b1: 1, 2: 4\x7d`. -/
def pyDictRepr (ps : List (Int × Int)) : String :=
  "\x7b" ++
    String.intercalate ", " (ps.map (fun p => toString p.1 ++ ": " ++ toString p.2)) ++
    "\x7d"

/-- Module-level state of the script: one optional slot per module variable
(`none` while the variable is not yet bound) and the standard-output lines
emitted so far. -/
structure PyState where
  numbers : Option (List Int)
  doubled : Option (List Int)
  user : Option User
  squares : Option (List (Int × Int))
  evens : Option (List Int)
  out : List String

/-- The state before the first statement runs: no variable bound, nothing
printed. -/
def initState : PyState :=
  ⟨none, none, none, none, none, []⟩

/-- Appending one line to standard output (`print(...)`). -/
def emit (s : PyState) (line : String) : PyState :=
  { s with out := s.out ++ [line] }

/-- The script's top-level statements in source order, each as a state
transformer. Reads of a module variable use its slot (defaulting like the
bound value's type requires only on paths the script never takes). -/
def script : List (PyState → PyState) :=
  [ fun s => emit s ("fib(10) = " ++ toString (fib 10)),
    fun s => { s with numbers := some [1, 2, 3, 4, 5] },
    fun s => { s with doubled := some ((s.numbers.getD []).map (fun n => n * 2)) },
    fun s => emit s ("Doubled: " ++ pyListRepr (s.doubled.getD [])),
    fun s => { s with user := some (User.mk "Nina" 25) },
    fun s => emit s ((s.user.getD (User.mk "" 0)).greet),
    fun s => { s with squares := some ((List.range' 1 5).map (fun n => ((n : Int), (n : Int) ^ 2))) },
    fun s => emit s ("Squares: " ++ pyDictRepr (s.squares.getD [])),
    fun s => { s with evens := some ((s.numbers.getD []).filter (fun x => x % 2 == 0)) },
    fun s => emit s ("Evens: " ++ pyListRepr (s.evens.getD [])) ]

/-- Every intermediate state of the run, starting with `initState`. -/
def trace : List PyState :=
  List.scanl (fun s f => f s) initState script

/-- The state after the whole script has run. -/
def finalState : PyState :=
  List.foldl (fun s f => f s) initState script

/-- C1: for every non-negative integer n, `fib n` equals the n-th Fibonacci
number of the reference recurrence fib(0)=0, fib(1)=1,
fib(n)=fib(n-1)+fib(n-2); in particular fib 0 = 0, fib 1 = 1, fib 10 = 55. -/
theorem C1_fib_matches_reference :
    (∀ n : Nat, fib (n : Int) = (fibRef n : Int)) ∧
    fib 0 = 0 ∧ fib 1 = 1 ∧ fib 10 = 55 :=
  ⟨fib_nat, fib_of_le_one 0 (by norm_num), fib_of_le_one 1 (by norm_num), fib_ten⟩

/-- C2 counterexample: at the concrete negative input -1 the guard `n <= 1`
holds and `fib (-1)` returns -1 without recursing: its value differs from the
value the recursive branch `fib (n-1) + fib (n-2)` would produce, so the
computation does not fall through to the recursion, let alone diverge. -/
theorem C2_counterexample :
    (-1 : Int) ≤ 1 ∧ fib (-1) = -1 ∧ fib (-1) ≠ fib (-1 - 1) + fib (-1 - 2) := by
  refine ⟨by norm_num, fib_of_le_one _ (by norm_num), ?_⟩
  rw [fib_of_le_one (-1) (by norm_num), fib_of_le_one (-1 - 1) (by norm_num),
    fib_of_le_one (-1 - 2) (by norm_num)]
  norm_num

/-- C2 amended: for every negative integer n the guard `n <= 1` catches n, so
`fib n` takes the base branch and terminates immediately, returning n itself
(no unbounded recursion occurs). -/
theorem C2_fib_negative (n : Int) (h : n < 0) : n ≤ 1 ∧ fib n = n :=
  ⟨by omega, fib_of_le_one n (by omega)⟩

/-- C2 witness: the amended statement at the concrete input -7. -/
theorem C2_fib_negative_witness : (-7 : Int) < 0 ∧ ((-7 : Int) ≤ 1 ∧ fib (-7) = -7) :=
  ⟨by norm_num, C2_fib_negative (-7) (by norm_num)⟩

/-- C3: running the script writes exactly these five lines to standard
output, in this order. -/
theorem C3_script_output :
    finalState.out =
      ["fib(10) = 55", "Doubled: [2, 4, 6, 8, 10]", "Hello, Nina!",
       "Squares: \x7b1: 1, 2: 4, 3: 9, 4: 16, 5: 25\x7d", "Evens: [2, 4]"] ∧
    finalState.out.length = 5 := by
  constructor
  · simp only [finalState, script, initState, emit, List.foldl, fib_ten]
    decide
  · simp only [finalState, script, initState, emit, List.foldl]
    decide

/-- C4: the doubling transformation is pure (a function of its input) and, for
every input sequence S, yields a sequence of the same length whose i-th
element is 2 * S[i], preserving order. -/
theorem C4_doubling (S : List Int) :
    (doubledOf S).length = S.length ∧
    ∀ (i : Nat) (h1 : i < (doubledOf S).length) (h2 : i < S.length),
      (doubledOf S)[i] = 2 * S[i] := by
  refine ⟨List.length_map S _, ?_⟩
  intro i h1 h2
  simp [doubledOf]
  ring

/-- C4 witness: the doubling property at the concrete sequence [3, 4], i = 0. -/
theorem C4_doubling_witness :
    (doubledOf [3, 4]).length = ([3, 4] : List Int).length ∧
    (doubledOf [3, 4])[0] = 2 * (([3, 4] : List Int))[0] :=
  ⟨(C4_doubling [3, 4]).1, (C4_doubling [3, 4]).2 0 (by decide) (by decide)⟩

/-- C5: the squares mapping has key list exactly [1, 2, 3, 4, 5] in insertion
order (so the key set is \x7b1,2,3,4,5\x7d and keys are unique), and every
key k maps to k * k. -/
theorem C5_squares_mapping :
    squares.map Prod.fst = [1, 2, 3, 4, 5] ∧
    (squares.map Prod.fst).Nodup ∧
    ∀ p ∈ squares, p.2 = p.1 * p.1 := by
  refine ⟨by decide, by decide, ?_⟩
  intro p hp
  fin_cases hp <;> decide

/-- C5 witness: the key-value property at the concrete entry (3, 9). -/
theorem C5_squares_mapping_witness :
    ((3 : Int), (9 : Int)) ∈ squares ∧ (9 : Int) = 3 * 3 :=
  ⟨by decide, C5_squares_mapping.2.2 (3, 9) (by decide)⟩

/-- C6: the even filter keeps exactly the elements divisible by 2, with their
multiplicities, as a sublist (so relative order is preserved); applied to
[1, 2, 3, 4, 5] it yields [2, 4]. -/
theorem C6_evens :
    (∀ S : List Int, (evensOf S).Sublist S ∧
      ∀ x : Int, (evensOf S).count x = if x % 2 = 0 then S.count x else 0) ∧
    evensOf [1, 2, 3, 4, 5] = [2, 4] := by
  refine ⟨fun S => ⟨List.filter_sublist S, ?_⟩, by decide⟩
  intro x
  unfold evensOf
  by_cases h : x % 2 = 0
  · rw [if_pos h]
    exact List.count_filter (by simpa using h)
  · rw [if_neg h]
    rw [List.count_eq_zero]
    intro hx
    rcases List.mem_filter.mp hx with ⟨_, hp⟩
    exact h (by simpa using hp)

/-- C7: constructing a User stores name and age verbatim and greet returns the
formatted string embedding the stored name; at ("Nina", 25) the greeting is
"Hello, Nina!". -/
theorem C7_user_greet :
    (∀ (s : String) (a : Int),
      (User.mk s a).name = s ∧ (User.mk s a).age = a ∧
      (User.mk s a).greet = "Hello, " ++ s ++ "!") ∧
    (User.mk "Nina" 25).greet = "Hello, Nina!" :=
  ⟨fun _ _ => ⟨rfl, rfl, rfl⟩, rfl⟩

/-- C8: in every state the run passes through, the `numbers` slot holds
nothing but its creation value [1, 2, 3, 4, 5] and the `user` slot holds
nothing but the constructed User "Nina"/25: no subsequent statement ever
mutates either value. -/
theorem C8_no_mutation (s : PyState) (hs : s ∈ trace) :
    (s.numbers = none ∨ s.numbers = some [1, 2, 3, 4, 5]) ∧
    (s.user = none ∨ s.user = some (User.mk "Nina" 25)) := by
  simp only [trace, script, initState, emit, List.scanl, List.mem_cons,
    List.not_mem_nil, or_false] at hs
  rcases hs with h | h | h | h | h | h | h | h | h | h | h <;> subst h <;>
    constructor <;> simp

/-- C8 witness: the invariant at the concrete initial state of the trace. -/
theorem C8_no_mutation_witness :
    initState ∈ trace ∧
    ((initState.numbers = none ∨ initState.numbers = some [1, 2, 3, 4, 5]) ∧
     (initState.user = none ∨ initState.user = some (User.mk "Nina" 25))) := by
  have h : initState ∈ trace := by simp [trace, script, List.scanl]
  exact ⟨h, C8_no_mutation initState h⟩

/-- C9: fib is total over Int by construction (the definition carries a
well-founded termination argument valid for every integer, negatives
included), and for every n ≤ 1 it returns n itself; in particular
fib (-3) = -3. -/
theorem C9_fib_total :
    (∀ n : Int, n ≤ 1 → fib n = n) ∧ fib (-3) = -3 :=
  ⟨fun n h => fib_of_le_one n h, fib_of_le_one (-3) (by norm_num)⟩

/-- C9 witness: the base-case equation at the concrete input -5. -/
theorem C9_fib_total_witness : (-5 : Int) ≤ 1 ∧ fib (-5) = -5 :=
  ⟨by norm_num, C9_fib_total.1 (-5) (by norm_num)⟩

/-- C10: the greeting does not depend on the age: two Users with the same
name and arbitrary ages produce identical greetings (noninterference of the
age field with greet). -/
theorem C10_greet_age_noninterference (s : String) (a1 a2 : Int) :
    (User.mk s a1).greet = (User.mk s a2).greet :=
  rfl

end BrowserCoder
